import Mathlib

/-!
Shallow embedding of `src/wgettos.py` (function `download_with_speed` and the
constants it uses).  The program downloads a URL to a file in 1024-byte chunks,
keeps a running byte counter, and prints a throttled progress line plus a final
summary.  We model:

* the connection-pool socket-option configuration (lines 35-39),
* filename resolution `output or os.path.basename(url)` (line 44),
* Content-Length capture (lines 45-47),
* the chunk loop (lines 51-64) as a step function over an explicit state,
  recording the observable actions (counter update, progress print, file write)
  in an event trace, and
* the final summary (lines 68-70).

Python's `time.time()` samples are modelled as a rational elapsed time supplied
with each chunk (the loop reads the clock once per iteration) plus one final
elapsed time for the summary.  Python float division raises `ZeroDivisionError`
when the divisor is zero; we model a division that can fail as an `Option`, and
a run that performs such a division with divisor `0` evaluates to `none`
(the crash).  Chunks are byte lists; `len(chunk)` is `List.length`.
-/

/-- Linux value of `socket.IPPROTO_IP`. -/
def IPPROTO_IP : ℕ := 0

/-- Linux value of `socket.IP_TOS`. -/
def IP_TOS : ℕ := 1

/-- Lines 35-39: the `PoolManager` is created with no `socket_options` key in
`connection_pool_kw`; the key is set to `[(IPPROTO_IP, IP_TOS, custom_tos)]`
exactly when `custom_tos is not None`.  `none` means the key is absent. -/
def connection_pool_socket_options (custom_tos : Option ℤ) :
    Option (List (ℕ × ℕ × ℤ)) :=
  match custom_tos with
  | none => none
  | some t => some [(IPPROTO_IP, IP_TOS, t)]

/-- Python float division `a / b`: raises `ZeroDivisionError` (`none`) when
`b == 0`, otherwise yields the quotient (modelled exactly over `ℚ`). -/
def pyDivQ (a b : ℚ) : Option ℚ :=
  if b = 0 then none else some (a / b)

/-- `os.path.basename` on POSIX: everything after the last `'/'` (the whole
string when it has no `'/'`). -/
def basename (s : String) : String :=
  String.mk ((s.data.reverse.takeWhile (fun c => c ≠ '/')).reverse)

/-- Line 44: `filename = output or os.path.basename(url)`.  Python `or` takes
the right operand when `output` is falsy, i.e. `None` or the empty string. -/
def resolveFilename (output : Option String) (url : String) : String :=
  match output with
  | none => basename url
  | some s => if s = "" then basename url else s

/-- Right-justify a string to width `w` with spaces, as Python's numeric
field padding does. -/
def rightJust (w : ℕ) (s : String) : String :=
  String.mk (List.replicate (w - s.length) ' ') ++ s

/-- Python `f"{v:3.0f}"`: the value rounded to an integer and right-justified
to 3 characters.  (Ties are modelled by `round`; the claims under study only
evaluate it at exact integers, where every rounding convention agrees.) -/
def fmtF3_0 (q : ℚ) : String :=
  rightJust 3 (toString (round q))

/-- Lines 56-58: the `percent` variable is reassigned to
`f"{downloaded_bytes / size * 100:3.0f}%"` only when `size > 0`; otherwise it
keeps its previous value (initially `" ??%"`). -/
def percentDisplay (size downloaded : ℕ) (old : String) : String :=
  if size > 0 then fmtF3_0 ((downloaded : ℚ) / (size : ℚ) * 100) ++ "%" else old

/-- Observable actions of one iteration of the chunk loop, in program order:
the counter update `downloaded_bytes += len(chunk)` (line 52), the progress
print (line 60) with the values it displays, and the file write (line 64). -/
inductive Ev where
  | add (n : ℕ)
  | progress (downloaded : ℕ) (elapsed : ℚ) (percent : String) (speed : ℚ)
  | write (chunk : List ℕ)
deriving DecidableEq, Repr

/-- The mutable state of `download_with_speed` during the chunk loop, plus the
contents written to the destination file and the event trace so far. -/
structure St where
  downloaded : ℕ
  displayedTime : ℚ
  percent : String
  content_length : String
  size : ℕ
  fileData : List ℕ
  trace : List Ev
deriving DecidableEq, Repr

/-- Lines 26-31 and 45-47: the loop state just before the chunk loop starts.
`contentLength` is the parsed `int(response.headers['Content-Length'])` when
the header is present (`size` and the `"/total"` suffix stay at their
defaults `0` and `""` otherwise). -/
def initSt (contentLength : Option ℕ) : St :=
  { downloaded := 0
    displayedTime := 0
    percent := " ??%"
    content_length := match contentLength with
      | none => ""
      | some n => "/" ++ toString n
    size := match contentLength with
      | none => 0
      | some n => n
    fileData := []
    trace := [] }

/-- One iteration of the chunk loop (lines 51-64), in source order:
`downloaded_bytes += len(chunk)`; compute `elapsed_time`; if
`elapsed_time >= displayed_time` then update `percent` (when `size > 0`),
compute `download_speed = downloaded_bytes / elapsed_time` (a crash — `none` —
when `elapsed_time` is zero), print the progress line and set
`displayed_time = elapsed_time + 0.5`; finally `file.write(chunk)`. -/
def step (st : St) (elapsed : ℚ) (chunk : List ℕ) : Option St :=
  let d := st.downloaded + chunk.length
  if st.displayedTime ≤ elapsed then
    let pct := percentDisplay st.size d st.percent
    match pyDivQ (d : ℚ) elapsed with
    | none => none
    | some speed =>
        some { st with
          downloaded := d
          percent := pct
          displayedTime := elapsed + 1/2
          fileData := st.fileData ++ chunk
          trace := st.trace ++ [Ev.add chunk.length,
                                Ev.progress d elapsed pct speed,
                                Ev.write chunk] }
  else
    some { st with
      downloaded := d
      fileData := st.fileData ++ chunk
      trace := st.trace ++ [Ev.add chunk.length, Ev.write chunk] }

/-- The chunk loop: `for chunk in response.stream(1024)`, each chunk paired
with the elapsed time `time.time() - start_time` observed in its iteration.
A `ZeroDivisionError` in any iteration aborts the run (`none`). -/
def runLoop (st : St) : List (ℚ × List ℕ) → Option St
  | [] => some st
  | (e, c) :: rest =>
    match step st e c with
    | none => none
    | some st1 => runLoop st1 rest

/-- The values printed by the final status message (line 70). -/
structure Summary where
  bytes : ℕ
  elapsed : ℚ
  speed : ℚ
deriving DecidableEq, Repr

/-- The observable outcome of a completed `download_with_speed` run. -/
structure Result where
  filename : String
  socketOptions : Option (List (ℕ × ℕ × ℤ))
  finalSt : St
  summary : Summary
deriving DecidableEq, Repr

/-- `download_with_speed(url, custom_tos, output)`, shallowly embedded.  The
response body is the chunk sequence `samples` (each chunk with the elapsed
time sampled in its iteration), `contentLength` the optional parsed
Content-Length header, and `finalElapsed` the elapsed time sampled at line 68.
`none` models an uncaught `ZeroDivisionError`. -/
def download_with_speed (url : String) (custom_tos : Option ℤ)
    (output : Option String) (contentLength : Option ℕ)
    (samples : List (ℚ × List ℕ)) (finalElapsed : ℚ) : Option Result :=
  match runLoop (initSt contentLength) samples with
  | none => none
  | some st =>
    match pyDivQ (st.downloaded : ℚ) finalElapsed with
    | none => none
    | some speed =>
        some { filename := resolveFilename output url
               socketOptions := connection_pool_socket_options custom_tos
               finalSt := st
               summary := { bytes := st.downloaded
                            elapsed := finalElapsed
                            speed := speed } }

/-- The elapsed times at which progress lines were printed, in print order. -/
def progressTimes (t : List Ev) : List ℚ :=
  t.filterMap fun e => match e with
    | Ev.progress _ el _ _ => some el
    | _ => none

/-- The percentage fields of the printed progress lines, in print order. -/
def progressPercents (t : List Ev) : List String :=
  t.filterMap fun e => match e with
    | Ev.progress _ _ p _ => some p
    | _ => none

/-- Every printed progress line showed the unknown-percentage field `" ??%"`. -/
def allUnknown (t : List Ev) : Bool :=
  (progressPercents t).all fun p => p == " ??%"

/-- A time sequence is `sparseAfter d` when its first element is at least `d`
and each element is at least half a second after the previous one. -/
def sparseAfter (d : ℚ) : List ℚ → Prop
  | [] => True
  | t :: ts => d ≤ t ∧ sparseAfter (t + 1/2) ts

/-- Extract the `Result` of a run known to complete. -/
def forceResult (o : Option Result) : Result :=
  o.getD { filename := ""
           socketOptions := none
           finalSt := initSt none
           summary := { bytes := 0, elapsed := 0, speed := 0 } }

/-- Extract the state of a step known to succeed. -/
def forceSt (o : Option St) : St :=
  o.getD (initSt none)

/-! ### Concrete demonstration runs, used to instantiate the theorems -/

/-- Chunk sequence of a demonstration run: one 1-byte chunk at elapsed 1 s
and one at elapsed 2 s. -/
def demoSamples2 : List (ℚ × List ℕ) := [(1, [9]), (2, [8])]

/-- Outcome of `download_with_speed "u" none (some "o") none demoSamples2 2`:
both chunks trigger a progress line (at elapsed 1 and 2). -/
def resTwoChunks : Result :=
  { filename := "o"
    socketOptions := none
    finalSt := { downloaded := 2, displayedTime := 5/2, percent := " ??%",
                 content_length := "", size := 0, fileData := [9, 8],
                 trace := [Ev.add 1, Ev.progress 1 1 " ??%" 1, Ev.write [9],
                           Ev.add 1, Ev.progress 2 2 " ??%" 1, Ev.write [8]] }
    summary := { bytes := 2, elapsed := 2, speed := 1 } }

/-- Outcome of `download_with_speed "u" none (some "o") none [(1, [9])] 1`. -/
def resOneChunk : Result :=
  { filename := "o"
    socketOptions := none
    finalSt := { downloaded := 1, displayedTime := 3/2, percent := " ??%",
                 content_length := "", size := 0, fileData := [9],
                 trace := [Ev.add 1, Ev.progress 1 1 " ??%" 1, Ev.write [9]] }
    summary := { bytes := 1, elapsed := 1, speed := 1 } }

/-- Outcome of `download_with_speed "u" (some 16) (some "o") none [(1, [9])] 1`:
the same run with priority marking 16. -/
def resTos : Result :=
  { filename := "o"
    socketOptions := some [(IPPROTO_IP, IP_TOS, 16)]
    finalSt := { downloaded := 1, displayedTime := 3/2, percent := " ??%",
                 content_length := "", size := 0, fileData := [9],
                 trace := [Ev.add 1, Ev.progress 1 1 " ??%" 1, Ev.write [9]] }
    summary := { bytes := 1, elapsed := 1, speed := 1 } }

/-- Outcome of a run with declared total size 1000 receiving one 250-byte
chunk at elapsed 1 s: the progress line's percentage field is `" 25%"`. -/
def resPercent25 : Result :=
  { filename := "o"
    socketOptions := none
    finalSt := { downloaded := 250, displayedTime := 3/2, percent := " 25%",
                 content_length := "/1000", size := 1000,
                 fileData := List.replicate 250 0,
                 trace := [Ev.add 250, Ev.progress 250 1 " 25%" 250,
                           Ev.write (List.replicate 250 0)] }
    summary := { bytes := 250, elapsed := 1, speed := 250 } }

/-- Outcome of `download_with_speed "u" none (some "o") none [(1, [5, 7])] 1`:
the progress line for the chunk is printed before the chunk is written. -/
def resTwoBytes : Result :=
  { filename := "o"
    socketOptions := none
    finalSt := { downloaded := 2, displayedTime := 3/2, percent := " ??%",
                 content_length := "", size := 0, fileData := [5, 7],
                 trace := [Ev.add 2, Ev.progress 2 1 " ??%" 2, Ev.write [5, 7]] }
    summary := { bytes := 2, elapsed := 1, speed := 2 } }

/-- Outcome of a run whose Content-Length header is present with value 0:
the size is captured as 0 and the percentage stays `" ??%"`. -/
def resZeroCL : Result :=
  { filename := "o"
    socketOptions := none
    finalSt := { downloaded := 1, displayedTime := 3/2, percent := " ??%",
                 content_length := "/0", size := 0, fileData := [4],
                 trace := [Ev.add 1, Ev.progress 1 1 " ??%" 1, Ev.write [4]] }
    summary := { bytes := 1, elapsed := 1, speed := 1 } }

/-- State after `step (initSt none) 1 [5, 6]`: one displayed iteration. -/
def stTwoBytesAdded : St :=
  { downloaded := 2, displayedTime := 3/2, percent := " ??%",
    content_length := "", size := 0, fileData := [5, 6],
    trace := [Ev.add 2, Ev.progress 2 1 " ??%" 2, Ev.write [5, 6]] }

/-! ### Helper lemmas -/

/-- `resolveFilename` with the non-empty output `"o"` is `"o"`. -/
theorem resolveFilename_o (url : String) : resolveFilename (some "o") url = "o" := rfl

/-- Rendering of the zero Content-Length header value. -/
theorem toString_zero : (toString (0 : ℕ)) = "0" := rfl

/-- Characterization of one loop iteration by the two branch conditions. -/
theorem step_eq (st : St) (e : ℚ) (c : List ℕ) :
    step st e c =
      if st.displayedTime ≤ e then
        if e = 0 then none
        else some { st with
          downloaded := st.downloaded + c.length
          percent := percentDisplay st.size (st.downloaded + c.length) st.percent
          displayedTime := e + 1/2
          fileData := st.fileData ++ c
          trace := st.trace ++ [Ev.add c.length,
            Ev.progress (st.downloaded + c.length) e
              (percentDisplay st.size (st.downloaded + c.length) st.percent)
              (((st.downloaded + c.length : ℕ) : ℚ) / e),
            Ev.write c] }
      else some { st with
          downloaded := st.downloaded + c.length
          fileData := st.fileData ++ c
          trace := st.trace ++ [Ev.add c.length, Ev.write c] } := by
  by_cases hle : st.displayedTime ≤ e <;> by_cases he : e = 0 <;>
    simp [step, pyDivQ, hle, he]

/-- A successful iteration is one of the two branches: silent, or displaying
a progress line (which requires the elapsed time to be nonzero). -/
theorem step_cases {st st1 : St} {e : ℚ} {c : List ℕ}
    (h : step st e c = some st1) :
    (¬ st.displayedTime ≤ e ∧
      st1 = { st with
        downloaded := st.downloaded + c.length
        fileData := st.fileData ++ c
        trace := st.trace ++ [Ev.add c.length, Ev.write c] }) ∨
    (st.displayedTime ≤ e ∧ e ≠ 0 ∧
      st1 = { st with
        downloaded := st.downloaded + c.length
        percent := percentDisplay st.size (st.downloaded + c.length) st.percent
        displayedTime := e + 1/2
        fileData := st.fileData ++ c
        trace := st.trace ++ [Ev.add c.length,
          Ev.progress (st.downloaded + c.length) e
            (percentDisplay st.size (st.downloaded + c.length) st.percent)
            (((st.downloaded + c.length : ℕ) : ℚ) / e),
          Ev.write c] }) := by
  rw [step_eq] at h
  by_cases hle : st.displayedTime ≤ e
  · by_cases he : e = 0
    · subst he
      rw [if_pos hle, if_pos rfl] at h
      exact absurd h (by simp)
    · right
      simp only [hle, if_true, he, if_false, Option.some.injEq] at h
      exact ⟨hle, he, h.symm⟩
  · left
    simp only [hle, if_false, Option.some.injEq] at h
    exact ⟨hle, h.symm⟩

/-- The byte counter and the file contents after the whole loop: the counter
grows by the total chunk length and the file receives the concatenation. -/
theorem runLoop_sum : ∀ (samples : List (ℚ × List ℕ)) (st st1 : St),
    runLoop st samples = some st1 →
    st1.downloaded = st.downloaded + (samples.map fun p => p.2.length).sum ∧
    st1.fileData = st.fileData ++ (samples.map Prod.snd).flatten := by
  intro samples
  induction samples with
  | nil =>
    intro st st1 h
    simp only [runLoop, Option.some.injEq] at h
    simp [← h]
  | cons p rest ih =>
    intro st st1 h
    obtain ⟨e, c⟩ := p
    simp only [runLoop] at h
    cases hstep : step st e c with
    | none => rw [hstep] at h; exact absurd h (by simp)
    | some st2 =>
      rw [hstep] at h
      obtain ⟨ihd, ihf⟩ := ih st2 st1 h
      rcases step_cases hstep with ⟨_, rfl⟩ | ⟨_, _, rfl⟩ <;>
        simp [ihd, ihf, add_assoc, List.append_assoc]

/-- A half-second-sparse time sequence is a chain whose consecutive elements
are at least half a second apart. -/
theorem sparseAfter_chain : ∀ (ts : List ℚ) (d : ℚ), sparseAfter d ts →
    List.Chain' (fun a b : ℚ => a + 1/2 ≤ b) ts := by
  intro ts
  induction ts with
  | nil => intro d _; simp
  | cons t rest ih =>
    intro d h
    obtain ⟨_, h2⟩ := h
    cases rest with
    | nil => simp
    | cons t2 r2 =>
      rw [List.chain'_cons]
      exact ⟨h2.1, ih (t + 1/2) h2⟩

/-- The progress lines printed during the loop are half-second sparse, the
first one no earlier than the pending display tick. -/
theorem runLoop_sparse : ∀ (samples : List (ℚ × List ℕ)) (st st1 : St),
    runLoop st samples = some st1 →
    ∃ Δ, st1.trace = st.trace ++ Δ ∧
      sparseAfter st.displayedTime (progressTimes Δ) := by
  intro samples
  induction samples with
  | nil =>
    intro st st1 h
    simp only [runLoop, Option.some.injEq] at h
    exact ⟨[], by simp [← h], by simp [progressTimes, sparseAfter]⟩
  | cons p rest ih =>
    intro st st1 h
    obtain ⟨e, c⟩ := p
    simp only [runLoop] at h
    cases hstep : step st e c with
    | none => rw [hstep] at h; exact absurd h (by simp)
    | some st2 =>
      rw [hstep] at h
      obtain ⟨Δ2, hΔ2, hsp⟩ := ih st2 st1 h
      rcases step_cases hstep with ⟨hle, rfl⟩ | ⟨hle, he, rfl⟩
      · refine ⟨[Ev.add c.length, Ev.write c] ++ Δ2, ?_, ?_⟩
        · simp only at hΔ2
          simp [hΔ2]
        · simp only at hsp
          simpa [progressTimes, List.filterMap_cons] using hsp
      · refine ⟨[Ev.add c.length,
          Ev.progress (st.downloaded + c.length) e
            (percentDisplay st.size (st.downloaded + c.length) st.percent)
            (((st.downloaded + c.length : ℕ) : ℚ) / e),
          Ev.write c] ++ Δ2, ?_, ?_⟩
        · simp only at hΔ2
          simp [hΔ2]
        · simp only at hsp
          simp only [progressTimes, List.filterMap_append, List.filterMap_cons,
            List.filterMap_nil]
          exact ⟨hle, by simpa [progressTimes] using hsp⟩

/-- `progressPercents` computes by cases on the head event. -/
theorem progressPercents_append (t1 t2 : List Ev) :
    progressPercents (t1 ++ t2) = progressPercents t1 ++ progressPercents t2 :=
  List.filterMap_append t1 t2 _

/-- An `add` event contributes no percentage field. -/
theorem progressPercents_add (n : ℕ) (t : List Ev) :
    progressPercents (Ev.add n :: t) = progressPercents t := rfl

/-- A `write` event contributes no percentage field. -/
theorem progressPercents_write (c : List ℕ) (t : List Ev) :
    progressPercents (Ev.write c :: t) = progressPercents t := rfl

/-- A `progress` event contributes its percentage field. -/
theorem progressPercents_progress (d : ℕ) (e : ℚ) (p : String) (s : ℚ)
    (t : List Ev) :
    progressPercents (Ev.progress d e p s :: t) = p :: progressPercents t := rfl

/-- `progressPercents` of the empty trace. -/
theorem progressPercents_nil : progressPercents [] = [] := rfl

/-- When the declared size is zero the percentage branch is never taken: the
`percent` variable keeps its value and every printed progress line shows it. -/
theorem runLoop_unknown : ∀ (samples : List (ℚ × List ℕ)) (st st1 : St),
    st.size = 0 → st.percent = " ??%" →
    runLoop st samples = some st1 →
    st1.size = 0 ∧ st1.percent = " ??%" ∧
    ∃ Δ, st1.trace = st.trace ++ Δ ∧
      ∀ p ∈ progressPercents Δ, p = " ??%" := by
  intro samples
  induction samples with
  | nil =>
    intro st st1 hsz hpc h
    simp only [runLoop, Option.some.injEq] at h
    exact ⟨by simp [← h, hsz], by simp [← h, hpc],
      ⟨[], by simp [← h], by simp [progressPercents]⟩⟩
  | cons p rest ih =>
    intro st st1 hsz hpc h
    obtain ⟨e, c⟩ := p
    simp only [runLoop] at h
    cases hstep : step st e c with
    | none => rw [hstep] at h; exact absurd h (by simp)
    | some st2 =>
      rw [hstep] at h
      rcases step_cases hstep with ⟨hle, rfl⟩ | ⟨hle, he, rfl⟩
      · obtain ⟨h1, h2, Δ2, hΔ2, hall⟩ := ih _ st1 (by simpa using hsz) (by simpa using hpc) h
        refine ⟨h1, h2, ⟨[Ev.add c.length, Ev.write c] ++ Δ2, ?_, ?_⟩⟩
        · simp only at hΔ2
          simp [hΔ2]
        · simpa [progressPercents, List.filterMap_cons] using hall
      · have hpct : percentDisplay st.size (st.downloaded + c.length) st.percent = " ??%" := by
          simp [percentDisplay, hsz, hpc]
        obtain ⟨h1, h2, Δ2, hΔ2, hall⟩ := ih _ st1 (by simpa using hsz) (by simpa using hpct) h
        refine ⟨h1, h2, ⟨[Ev.add c.length,
          Ev.progress (st.downloaded + c.length) e
            (percentDisplay st.size (st.downloaded + c.length) st.percent)
            (((st.downloaded + c.length : ℕ) : ℚ) / e),
          Ev.write c] ++ Δ2, ?_, ?_⟩⟩
        · simp only at hΔ2
          simp [hΔ2]
        · simp only [progressPercents_append, progressPercents_add,
            progressPercents_progress, progressPercents_write, progressPercents_nil,
            List.cons_append, List.nil_append]
          intro q hq
          rcases List.mem_cons.mp hq with hq | hq
          · rw [hq]; exact hpct
          · exact hall q hq

/-- `takeWhile` runs through a prefix that wholly satisfies the predicate and
stops at the first failing element. -/
theorem takeWhile_append_all {α : Type} {p : α → Bool} {l1 l2 : List α} {a : α}
    (h : ∀ x ∈ l1, p x = true) (ha : p a = false) :
    (l1 ++ a :: l2).takeWhile p = l1 := by
  induction l1 with
  | nil => simp [List.takeWhile_cons, ha]
  | cons x xs ih =>
    have hx : p x = true := h x (List.mem_cons_self x xs)
    simp only [List.cons_append, List.takeWhile_cons, hx, if_true]
    rw [ih fun y hy => h y (List.mem_cons_of_mem x hy)]

/-- `os.path.basename` of a string ending in `"/" ++ name`, when `name` has no
slash, is `name`. -/
theorem basename_concat {pre name : String} (h : '/' ∉ name.data) :
    basename (pre ++ "/" ++ name) = name := by
  have hd : (pre ++ "/" ++ name).data = pre.data ++ '/' :: name.data := by
    simp [String.data_append]
  have hrev : (pre.data ++ '/' :: name.data).reverse =
      name.data.reverse ++ '/' :: pre.data.reverse := by
    simp
  have hall : ∀ x ∈ name.data.reverse, (decide (x ≠ '/')) = true := by
    intro x hx
    have : x ∈ name.data := List.mem_reverse.mp hx
    simp only [decide_eq_true_eq]
    intro hxeq
    exact h (hxeq ▸ this)
  have htw : (name.data.reverse ++ '/' :: pre.data.reverse).takeWhile
      (fun c => decide (c ≠ '/')) = name.data.reverse :=
    takeWhile_append_all hall (by simp)
  show String.mk _ = name
  rw [hd, hrev, htw, List.reverse_reverse]

/-- `progressTimes` distributes over append. -/
theorem progressTimes_append (t1 t2 : List Ev) :
    progressTimes (t1 ++ t2) = progressTimes t1 ++ progressTimes t2 :=
  List.filterMap_append t1 t2 _

/-- An `add` event contributes no progress time. -/
theorem progressTimes_add (n : ℕ) (t : List Ev) :
    progressTimes (Ev.add n :: t) = progressTimes t := rfl

/-- A `write` event contributes no progress time. -/
theorem progressTimes_write (c : List ℕ) (t : List Ev) :
    progressTimes (Ev.write c :: t) = progressTimes t := rfl

/-- A `progress` event contributes its elapsed time. -/
theorem progressTimes_progress (d : ℕ) (e : ℚ) (p : String) (s : ℚ)
    (t : List Ev) :
    progressTimes (Ev.progress d e p s :: t) = e :: progressTimes t := rfl

/-- `progressTimes` of the empty trace. -/
theorem progressTimes_nil : progressTimes [] = [] := rfl

/-- A completed run decomposes into a completed loop and a successful final
throughput division. -/
theorem download_with_speed_some {url : String} {tos : Option ℤ}
    {output : Option String} {hdr : Option ℕ}
    {samples : List (ℚ × List ℕ)} {fe : ℚ} {res : Result}
    (h : download_with_speed url tos output hdr samples fe = some res) :
    ∃ st speed, runLoop (initSt hdr) samples = some st ∧
      pyDivQ (st.downloaded : ℚ) fe = some speed ∧
      res = { filename := resolveFilename output url
              socketOptions := connection_pool_socket_options tos
              finalSt := st
              summary := { bytes := st.downloaded, elapsed := fe, speed := speed } } := by
  cases hrl : runLoop (initSt hdr) samples with
  | none => simp [download_with_speed, hrl] at h
  | some st =>
    cases hdiv : pyDivQ (st.downloaded : ℚ) fe with
    | none => simp [download_with_speed, hrl, hdiv] at h
    | some speed =>
      simp only [download_with_speed, hrl, hdiv, Option.some.injEq] at h
      exact ⟨st, speed, rfl, hdiv, h.symm⟩

/-! ### Claims -/

/-- C1: the spec requires every throughput computation (bytes downloaded
divided by elapsed time), including the one in the final summary, to be
defined and not crash when the elapsed time is exactly zero.  The code
violates this: for a zero-byte instantaneous transfer (no chunks, final
elapsed time `0`) the final summary divides by zero, and a first chunk
arriving at elapsed time `0` makes the in-loop speed computation divide by
zero as well — in both places the run aborts with `ZeroDivisionError`
(modelled as `none`). -/
theorem c1_zero_elapsed_throughput_crashes :
    download_with_speed "http://example.com/f" none none none [] 0 = none ∧
    runLoop (initSt none) [(0, [3])] = none ∧
    pyDivQ 0 0 = none := by decide

/-- C2: for a response body delivered as a sequence of chunks, after the
chunk loop finishes the downloaded-bytes counter equals the sum of the
lengths of all chunks, the file contents are exactly their concatenation,
and the final summary reports that same byte count. -/
theorem c2_byte_count_accuracy (url : String) (tos : Option ℤ)
    (output : Option String) (hdr : Option ℕ)
    (samples : List (ℚ × List ℕ)) (fe : ℚ) (res : Result)
    (h : download_with_speed url tos output hdr samples fe = some res) :
    res.finalSt.downloaded = (samples.map fun p => p.2.length).sum ∧
    res.finalSt.fileData = (samples.map Prod.snd).flatten ∧
    res.summary.bytes = (samples.map fun p => p.2.length).sum := by
  obtain ⟨st, speed, hrl, hdiv, rfl⟩ := download_with_speed_some h
  obtain ⟨hd, hf⟩ := runLoop_sum samples (initSt hdr) st hrl
  simp only [initSt] at hd hf
  refine ⟨?_, ?_, ?_⟩ <;> simp [hd, hf]

/-- C2 witness: a concrete two-chunk run of 1 + 1 bytes. -/
theorem c2_byte_count_accuracy_witness :
    resTwoChunks.finalSt.downloaded = (demoSamples2.map fun p => p.2.length).sum ∧
    resTwoChunks.finalSt.fileData = (demoSamples2.map Prod.snd).flatten ∧
    resTwoChunks.summary.bytes = (demoSamples2.map fun p => p.2.length).sum :=
  c2_byte_count_accuracy "u" none (some "o") none demoSamples2 2 resTwoChunks
    (by norm_num [download_with_speed, runLoop, step, initSt, pyDivQ,
      percentDisplay, resolveFilename_o, connection_pool_socket_options,
      demoSamples2, resTwoChunks])

/-- C3: the connection pool's socket options contain `(IPPROTO_IP, IP_TOS, t)`
exactly when the priority marking `t` was supplied; when it is omitted no
socket option is set (the `socket_options` key is absent), and every call of
`download_with_speed` carries the options so determined. -/
theorem c3_socket_options_iff :
    (∀ (custom_tos : Option ℤ) (t : ℤ),
      (IPPROTO_IP, IP_TOS, t) ∈ (connection_pool_socket_options custom_tos).getD []
        ↔ custom_tos = some t) ∧
    connection_pool_socket_options none = none ∧
    (∀ (url : String) (custom_tos : Option ℤ) (output : Option String)
       (hdr : Option ℕ) (samples : List (ℚ × List ℕ)) (fe : ℚ) (res : Result),
      download_with_speed url custom_tos output hdr samples fe = some res →
      res.socketOptions = connection_pool_socket_options custom_tos) := by
  refine ⟨?_, rfl, ?_⟩
  · intro tos t
    cases tos with
    | none => simp [connection_pool_socket_options]
    | some t2 => simp [connection_pool_socket_options, Prod.ext_iff, eq_comm]
  · intro url tos output hdr samples fe res h
    obtain ⟨st, speed, hrl, hdiv, rfl⟩ := download_with_speed_some h
    rfl

/-- C3 witness: a concrete run with marking 16 carries exactly that option. -/
theorem c3_socket_options_iff_witness :
    resTos.socketOptions = connection_pool_socket_options (some 16) :=
  c3_socket_options_iff.2.2 "u" (some 16) (some "o") none [(1, [9])] 1 resTos
    (by norm_num [download_with_speed, runLoop, step, initSt, pyDivQ,
      percentDisplay, resolveFilename_o, connection_pool_socket_options, resTos])

/-- C4: for a URL whose path ends in a non-empty, slash-free last component,
when no output filename is given the destination filename is exactly that
last component (the basename of the URL). -/
theorem c4_default_filename_is_basename (pre name : String)
    (h1 : name ≠ "") (h2 : '/' ∉ name.data) :
    resolveFilename none (pre ++ "/" ++ name) = name := by
  simp [resolveFilename, basename_concat h2]

/-- C4 witness: `name.ext` is extracted from a concrete URL. -/
theorem c4_default_filename_is_basename_witness :
    ("name.ext" ≠ "" ∧ '/' ∉ "name.ext".data) ∧
    resolveFilename none ("http://example.com/dir" ++ "/" ++ "name.ext") =
      "name.ext" :=
  ⟨⟨by decide, by decide⟩,
   c4_default_filename_is_basename "http://example.com/dir" "name.ext"
     (by decide) (by decide)⟩

set_option maxRecDepth 10000 in
/-- C5 counterexample: with declared total size 1000 and 250 bytes downloaded,
the percentage field the progress line displays is `" 25%"` (the value
right-justified to 3 characters by the `3.0f` format), which is not the
claimed string `"25%"`. -/
theorem c5_percent_field_counterexample :
    download_with_speed "u" none (some "o") (some 1000)
      [(1, List.replicate 250 0)] 1 = some resPercent25 ∧
    progressPercents resPercent25.finalSt.trace = [" 25%"] ∧
    (" 25%" : String) ≠ "25%" := by
  refine ⟨?_, by decide, by decide⟩
  have hround : round ((250 : ℚ) / 1000 * 100) = 25 := by rw [round_eq]; norm_num
  norm_num [download_with_speed, runLoop, step, initSt, pyDivQ, percentDisplay,
    resolveFilename_o, connection_pool_socket_options, fmtF3_0, hround,
    rightJust, resPercent25]
  decide

set_option maxRecDepth 10000 in
/-- C5 (amended): with declared total size 1000 and 250 bytes downloaded the
displayed percentage field is `" 25%"` (the value 25 right-justified in a
3-character numeric field, followed by `%`), and when the response declares
no total size every progress line displays the field `" ??%"`. -/
theorem c5_percent_field_amended :
    (download_with_speed "u" none (some "o") (some 1000)
      [(1, List.replicate 250 0)] 1 = some resPercent25 ∧
     progressPercents resPercent25.finalSt.trace = [" 25%"]) ∧
    (∀ (url : String) (tos : Option ℤ) (output : Option String)
       (samples : List (ℚ × List ℕ)) (fe : ℚ) (res : Result),
      download_with_speed url tos output none samples fe = some res →
      allUnknown res.finalSt.trace = true) := by
  refine ⟨⟨?_, by decide⟩, ?_⟩
  · have hround : round ((250 : ℚ) / 1000 * 100) = 25 := by rw [round_eq]; norm_num
    norm_num [download_with_speed, runLoop, step, initSt, pyDivQ, percentDisplay,
      resolveFilename_o, connection_pool_socket_options, fmtF3_0, hround,
      rightJust, resPercent25]
    decide
  · intro url tos output samples fe res h
    obtain ⟨st, speed, hrl, hdiv, rfl⟩ := download_with_speed_some h
    obtain ⟨hsz, hpc, Δ, hΔ, hall⟩ :=
      runLoop_unknown samples (initSt none) st rfl rfl hrl
    have htr : st.trace = Δ := by simpa [initSt] using hΔ
    show allUnknown st.trace = true
    simp only [allUnknown, htr, List.all_eq_true]
    intro p hp
    simp [hall p hp]

/-- C5 witness: a size-less single-chunk run shows only `" ??%"` lines. -/
theorem c5_percent_field_amended_witness :
    allUnknown resOneChunk.finalSt.trace = true :=
  c5_percent_field_amended.2 "u" none (some "o") [(1, [9])] 1 resOneChunk
    (by norm_num [download_with_speed, runLoop, step, initSt, pyDivQ,
      percentDisplay, resolveFilename_o, connection_pool_socket_options,
      resOneChunk])

/-- C6 counterexample: in the iteration for the chunk `[5, 7]` the program
prints the progress line before writing the chunk: the trace is
counter-update, progress, write — not counter-update, write, progress as
claimed. -/
theorem c6_write_before_progress_counterexample :
    download_with_speed "u" none (some "o") none [(1, [5, 7])] 1 =
      some resTwoBytes ∧
    resTwoBytes.finalSt.trace =
      [Ev.add 2, Ev.progress 2 1 " ??%" 2, Ev.write [5, 7]] ∧
    resTwoBytes.finalSt.trace ≠
      [Ev.add 2, Ev.write [5, 7], Ev.progress 2 1 " ??%" 2] := by
  refine ⟨?_, by decide, by decide⟩
  norm_num [download_with_speed, runLoop, step, initSt, pyDivQ, percentDisplay,
    resolveFilename_o, connection_pool_socket_options, resTwoBytes]

/-- C6 (amended): in every iteration of the chunk loop the steps occur in the
order: the chunk's length is added to the running byte counter, then elapsed
time is compared against the display tick and the progress line is (possibly)
emitted, and only then is the chunk written to the destination file — so any
progress line for a chunk is printed before that chunk is written. -/
theorem c6_iteration_order_amended : ∀ (st : St) (e : ℚ) (c : List ℕ) (st1 : St),
    step st e c = some st1 →
    ∃ mid, st1.trace = st.trace ++ Ev.add c.length :: (mid ++ [Ev.write c]) ∧
      (mid = [] ∨ ∃ pct spd,
        mid = [Ev.progress (st.downloaded + c.length) e pct spd]) := by
  intro st e c st1 h
  rcases step_cases h with ⟨hle, rfl⟩ | ⟨hle, he, rfl⟩
  · exact ⟨[], by simp, Or.inl rfl⟩
  · exact ⟨[Ev.progress (st.downloaded + c.length) e
      (percentDisplay st.size (st.downloaded + c.length) st.percent)
      (((st.downloaded + c.length : ℕ) : ℚ) / e)], by simp, Or.inr ⟨_, _, rfl⟩⟩

/-- C6 witness: the displaying iteration on chunk `[5, 6]`. -/
theorem c6_iteration_order_amended_witness :
    ∃ mid, stTwoBytesAdded.trace =
      (initSt none).trace ++ Ev.add (List.length [5, 6]) :: (mid ++ [Ev.write [5, 6]]) ∧
      (mid = [] ∨ ∃ pct spd,
        mid = [Ev.progress ((initSt none).downloaded + List.length [5, 6]) 1 pct spd]) :=
  c6_iteration_order_amended (initSt none) 1 [5, 6] stTwoBytesAdded
    (by norm_num [step, initSt, pyDivQ, percentDisplay, stTwoBytesAdded])

/-- C7: consecutive progress lines are at least half a second apart: a line
is printed only when the elapsed time has reached the pending display tick,
and printing resets the tick to the current elapsed time plus half a
second. -/
theorem c7_progress_cadence :
    (∀ (url : String) (tos : Option ℤ) (output : Option String) (hdr : Option ℕ)
       (samples : List (ℚ × List ℕ)) (fe : ℚ) (res : Result),
      download_with_speed url tos output hdr samples fe = some res →
      List.Chain' (fun a b : ℚ => a + 1/2 ≤ b) (progressTimes res.finalSt.trace)) ∧
    (∀ (st : St) (e : ℚ) (c : List ℕ) (st1 : St), step st e c = some st1 →
      progressTimes st1.trace =
        progressTimes st.trace ++ (if st.displayedTime ≤ e then [e] else []) ∧
      st1.displayedTime =
        (if st.displayedTime ≤ e then e + 1/2 else st.displayedTime)) := by
  constructor
  · intro url tos output hdr samples fe res h
    obtain ⟨st, speed, hrl, hdiv, rfl⟩ := download_with_speed_some h
    obtain ⟨Δ, hΔ, hsp⟩ := runLoop_sparse samples (initSt hdr) st hrl
    have htr : st.trace = Δ := by simpa [initSt] using hΔ
    show List.Chain' (fun a b : ℚ => a + 1/2 ≤ b) (progressTimes st.trace)
    rw [htr]
    exact sparseAfter_chain _ _ hsp
  · intro st e c st1 h
    rcases step_cases h with ⟨hle, rfl⟩ | ⟨hle, he, rfl⟩ <;>
      refine ⟨?_, ?_⟩ <;>
      simp [hle, progressTimes_append, progressTimes_add, progressTimes_write,
        progressTimes_progress, progressTimes_nil]

/-- C7 witness: the two-chunk run prints at elapsed 1 and 2, one second
apart. -/
theorem c7_progress_cadence_witness :
    List.Chain' (fun a b : ℚ => a + 1/2 ≤ b)
      (progressTimes resTwoChunks.finalSt.trace) :=
  c7_progress_cadence.1 "u" none (some "o") none demoSamples2 2 resTwoChunks
    (by norm_num [download_with_speed, runLoop, step, initSt, pyDivQ,
      percentDisplay, resolveFilename_o, connection_pool_socket_options,
      demoSamples2, resTwoChunks])

/-- C8: the downloaded-bytes counter is monotonically non-decreasing: each
iteration adds exactly the (non-negative) length of the received chunk, and
across any completed stretch of the loop the counter never decreases. -/
theorem c8_counter_monotone :
    (∀ (st : St) (e : ℚ) (c : List ℕ) (st1 : St), step st e c = some st1 →
      st1.downloaded = st.downloaded + c.length ∧
      st.downloaded ≤ st1.downloaded) ∧
    (∀ (samples : List (ℚ × List ℕ)) (st st1 : St),
      runLoop st samples = some st1 → st.downloaded ≤ st1.downloaded) := by
  constructor
  · intro st e c st1 h
    rcases step_cases h with ⟨_, rfl⟩ | ⟨_, _, rfl⟩ <;> simp
  · intro samples st st1 h
    rw [(runLoop_sum samples st st1 h).1]
    exact Nat.le_add_right _ _

/-- C8 witness: the iteration on chunk `[5, 6]` adds 2 to the counter. -/
theorem c8_counter_monotone_witness :
    (stTwoBytesAdded.downloaded = (initSt none).downloaded + List.length [5, 6] ∧
      (initSt none).downloaded ≤ stTwoBytesAdded.downloaded) ∧
    (initSt none).downloaded ≤ stTwoBytesAdded.downloaded :=
  ⟨c8_counter_monotone.1 (initSt none) 1 [5, 6] stTwoBytesAdded
      (by norm_num [step, initSt, pyDivQ, percentDisplay, stTwoBytesAdded]),
   c8_counter_monotone.2 [(1, [5, 6])] (initSt none) stTwoBytesAdded
      (by norm_num [runLoop, step, initSt, pyDivQ, percentDisplay,
        stTwoBytesAdded])⟩

/-- C9: an output argument that is the empty string is treated exactly like
an absent output: the destination filename is the basename of the URL, not
the empty path. -/
theorem c9_empty_output_like_absent (url : String) :
    resolveFilename (some "") url = resolveFilename none url ∧
    resolveFilename (some "") url = basename url := by
  exact ⟨rfl, rfl⟩

/-- C10 counterexample: with a Content-Length header of value 0 the captured
size is 0 and the progress line displays the field `" ??%"` — the padded
unknown marker, not the claimed string `"??%"`. -/
theorem c10_zero_content_length_counterexample :
    download_with_speed "u" none (some "o") (some 0) [(1, [4])] 1 =
      some resZeroCL ∧
    progressPercents resZeroCL.finalSt.trace = [" ??%"] ∧
    (" ??%" : String) ≠ "??%" := by
  refine ⟨?_, by decide, by decide⟩
  norm_num [download_with_speed, runLoop, step, initSt, pyDivQ, percentDisplay,
    resolveFilename_o, connection_pool_socket_options, toString_zero, resZeroCL]
  decide

/-- C10 (amended): when the Content-Length header is present with value 0 the
captured size is 0, the known-size percentage branch is taken only when the
declared size is strictly positive, and every progress line of such a run
displays the field `" ??%"` even though the total size is declared. -/
theorem c10_zero_content_length_amended :
    (initSt (some 0)).size = 0 ∧
    (∀ (d : ℕ) (old : String), percentDisplay 0 d old = old) ∧
    (∀ (url : String) (tos : Option ℤ) (output : Option String)
       (samples : List (ℚ × List ℕ)) (fe : ℚ) (res : Result),
      download_with_speed url tos output (some 0) samples fe = some res →
      res.finalSt.size = 0 ∧ allUnknown res.finalSt.trace = true) := by
  refine ⟨rfl, fun d old => rfl, ?_⟩
  intro url tos output samples fe res h
  obtain ⟨st, speed, hrl, hdiv, rfl⟩ := download_with_speed_some h
  obtain ⟨hsz, hpc, Δ, hΔ, hall⟩ :=
    runLoop_unknown samples (initSt (some 0)) st rfl rfl hrl
  have htr : st.trace = Δ := by simpa [initSt] using hΔ
  refine ⟨hsz, ?_⟩
  show allUnknown st.trace = true
  simp only [allUnknown, htr, List.all_eq_true]
  intro p hp
  simp [hall p hp]

/-- C10 witness: the concrete zero-Content-Length run. -/
theorem c10_zero_content_length_amended_witness :
    resZeroCL.finalSt.size = 0 ∧ allUnknown resZeroCL.finalSt.trace = true :=
  c10_zero_content_length_amended.2.2 "u" none (some "o") [(1, [4])] 1 resZeroCL
    (by
      norm_num [download_with_speed, runLoop, step, initSt, pyDivQ,
        percentDisplay, resolveFilename_o, connection_pool_socket_options,
        toString_zero, resZeroCL]
      decide)
